import Mathlib

/-!
Verification development for the geometry / highlight-model subsystem of
`react-pdf-highlight`.

The TypeScript source is shallowly embedded: JS numbers are modelled by `ℚ`
(all the claims under study involve only field arithmetic, `min`/`max`/`abs`
and comparisons, which are exact over `ℚ`); optional fields become `Option`;
JS truthiness on an optional numeric `pageNumber` is modelled explicitly
(`0` is falsy in JS).
-/

namespace PdfHighlight

/-- Type `LTWH` from `src/types.ts`: `{left, top, width, height}`. -/
structure LTWH where
  left : ℚ
  top : ℚ
  width : ℚ
  height : ℚ
deriving DecidableEq, Repr

/-- Type `LTWHP` from `src/types.ts`: an `LTWH` with an optional `pageNumber`. -/
structure LTWHP where
  left : ℚ
  top : ℚ
  width : ℚ
  height : ℚ
  pageNumber : Option ℕ := none
deriving DecidableEq, Repr

/-- Type `Scaled` from `src/types.ts`: stored, resolution-independent rectangle. -/
structure Scaled where
  x1 : ℚ
  y1 : ℚ
  x2 : ℚ
  y2 : ℚ
  width : ℚ
  height : ℚ
  pageNumber : Option ℕ := none
deriving DecidableEq, Repr

/-- Type `Position` from `src/types.ts` (viewport space). -/
structure Position where
  boundingRect : LTWHP
  rects : List LTWHP
  pageNumber : ℕ
deriving DecidableEq, Repr

/-- Type `ScaledPosition` from `src/types.ts`. The optional `usePdfCoordinates`
flag is modelled as a `Bool` defaulting to `false` (JS `undefined` is falsy
and every consumer in the source defaults it to `false`). -/
structure ScaledPosition where
  boundingRect : Scaled
  rects : List Scaled
  pageNumber : ℕ
  usePdfCoordinates : Bool := false
deriving DecidableEq, Repr

/-- Type `HighlightType` from `src/types.ts`: `"text" | "image"`. -/
inductive HighlightType where
  | text
  | image
deriving DecidableEq, Repr

/-- Type `IHighlight` from `src/types.ts`. `content` and `comment` are modelled by
their string payloads; they are copied verbatim by the grouping code (object
spread) and never inspected by it. -/
structure IHighlight where
  id : Option String := none
  position : ScaledPosition
  contentText : Option String := none
  contentImage : Option String := none
  commentText : Option String := none
  type : Option HighlightType := none
deriving DecidableEq, Repr

/-- Type `Page` from `src/types.ts` (the DOM `node` field carries no geometric
information used by the claims and is omitted). -/
structure Page where
  number : ℕ
deriving DecidableEq, Repr

/-! ## MouseSelection (`src/components/MouseSelection.tsx`) -/

/-- Type `Coords` from `MouseSelection.tsx`. -/
structure Coords where
  x : ℚ
  y : ℚ
deriving DecidableEq, Repr

/-- Function `getBoundingRect` from `MouseSelection.tsx` (lines 15-22):
left/top are the per-axis `Math.min` of the two points, width/height the
per-axis `Math.abs` of the difference. -/
def getBoundingRect (start finish : Coords) : LTWH :=
  { left := min finish.x start.x
    top := min finish.y start.y
    width := |finish.x - start.x|
    height := |finish.y - start.y| }

/-- Function `shouldRender` from `MouseSelection.tsx` (lines 24-25):
`boundingRect.width >= 1 && boundingRect.height >= 1`. -/
def shouldRender (boundingRect : LTWH) : Bool :=
  decide (1 ≤ boundingRect.width) && decide (1 ≤ boundingRect.height)

/-- The mutable state of the `MouseSelection` component: the React state
cells `locked`, `startCoords`, `endCoords`. -/
structure MouseState where
  locked : Bool
  startCoords : Option Coords
  endCoords : Option Coords
deriving DecidableEq, Repr

/-- Function `reset` from `MouseSelection.tsx` (lines 65-70): clears both coordinate
cells and the lock — the machine's idle state. -/
def resetState : MouseState :=
  { locked := false, startCoords := none, endCoords := none }

/-- Function `mouseUpHandler` from `MouseSelection.tsx` (lines 119-146), as a step
function.  `targetOk` abstracts the three DOM checks on the release target
(`event.target instanceof Element`, `isHTMLElement(event.target)`,
`container.contains(event.target)`); `endC` is the release point already
converted by `containerCoords`.  Returns the successor state and the
argument of the `onSelection` callback when it fires (`none` = not fired). -/
def mouseUpHandler (st : MouseState) (targetOk : Bool) (endC : Coords) :
    MouseState × Option LTWH :=
  match st.startCoords with
  | none => (st, none)
  | some currentStart =>
    let boundingRect := getBoundingRect currentStart endC
    if !targetOk || !(shouldRender boundingRect) then
      (resetState, none)
    else
      ({ locked := true, startCoords := some currentStart,
         endCoords := some endC }, some boundingRect)

/-! ## Positioner (`src/components/Positioner.tsx`) -/

/-- Function `clamp` from `Positioner.tsx` (lines 12-14):
`Math.min(Math.max(value, left), right)`. -/
def clamp (value l r : ℚ) : ℚ :=
  min (max value l) r

/-- The page DOM node measurements used by `Positioner.tsx`:
`node.offsetLeft`, `node.offsetTop` and `node.getBoundingClientRect().width`. -/
structure PageNode where
  offsetLeft : ℚ
  offsetTop : ℚ
  pageWidth : ℚ
deriving DecidableEq, Repr

/-- Expression `partial.left` from `Positioner.tsx` (line 55):
`node.offsetLeft + boundingRect.left + boundingRect.width / 2`
— the horizontal center of the anchor rect in container coordinates. -/
def positionerCenterX (node : PageNode) (boundingRect : LTWHP) : ℚ :=
  node.offsetLeft + boundingRect.left + boundingRect.width / 2

/-- Expression `style.left` from `Positioner.tsx` (lines 61-65):
`clamp(partial.left - width / 2, 0, pageBoundingRect.width - width)`. -/
def positionerLeft (node : PageNode) (boundingRect : LTWHP) (w : ℚ) : ℚ :=
  clamp (positionerCenterX node boundingRect - w / 2) 0 (node.pageWidth - w)

/-- Expression `style.top` from `Positioner.tsx` (lines 54-60):
`partial.top = boundingRect.top + node.offsetTop`,
`partial.bottom = partial.top + boundingRect.height`,
`shouldMove = partial.top - height - 5 < scrollTop`,
`top = shouldMove ? partial.bottom + 5 : partial.top - height - 5`. -/
def positionerTop (node : PageNode) (boundingRect : LTWHP) (h scrollTop : ℚ) : ℚ :=
  let pTop := boundingRect.top + node.offsetTop
  let pBottom := boundingRect.top + node.offsetTop + boundingRect.height
  if pTop - h - 5 < scrollTop then pBottom + 5 else pTop - h - 5

/-! ## Grouping (`src/components/Highlighter.tsx`, `groupHighlightsByPage`) -/

/-- The JS expression `rect.pageNumber || highlight.position.pageNumber`
(`Highlighter.tsx` line 376): the rect's own page number when it is truthy
(present and non-zero — `0` is falsy in JS), else the highlight's page. -/
def rectEffPage (ownPage : ℕ) (r : Scaled) : ℕ :=
  match r.pageNumber with
  | some q => if q = 0 then ownPage else q
  | none => ownPage

/-- The body of `if (rect.pageNumber) pageNumbers.add(rect.pageNumber)`
(`Highlighter.tsx` lines 356-358): a rect contributes its page number to the
page set only when it is truthy. -/
def truthyPageNumber (r : Scaled) : Option ℕ :=
  match r.pageNumber with
  | some q => if q = 0 then none else some q
  | none => none

/-- The page numbers one highlight contributes to the `pageNumbers` set
(`Highlighter.tsx` lines 353-360): its own `position.pageNumber` plus every
truthy `rect.pageNumber` of its rects. -/
def touchedPages (h : IHighlight) : List ℕ :=
  h.position.pageNumber :: h.position.rects.filterMap truthyPageNumber

/-- Expression `[...highlights, ghostHighlight].filter(Boolean)` (`Highlighter.tsx`
lines 349-351): the working set with null/undefined entries dropped. -/
def workingSet (highlights : List (Option IHighlight))
    (ghostHighlight : Option IHighlight) : List IHighlight :=
  (highlights ++ [ghostHighlight]).filterMap id

/-- The rects the inner loop of `Highlighter.tsx` (lines 374-380) pushes into
the page-scoped copy for page `p`: those whose effective page is `p`,
in input order. -/
def pageRects (h : IHighlight) (p : ℕ) : List Scaled :=
  h.position.rects.filter fun r => rectEffPage h.position.pageNumber r == p

/-- The push condition `anyRectsOnPage || pageNumber ===
highlight.position.pageNumber` (`Highlighter.tsx` line 381). -/
def emitsOn (p : ℕ) (h : IHighlight) : Bool :=
  !(pageRects h p).isEmpty || p == h.position.pageNumber

/-- Object `pageSpecificHighlight` (`Highlighter.tsx` lines 365-380): the object
spread keeps every field of the highlight; the position is rebuilt with the
group's page number, the original (unsliced) bounding rect, the rects
belonging to this page, and the original `usePdfCoordinates`. -/
def pageScoped (p : ℕ) (h : IHighlight) : IHighlight :=
  { h with
    position :=
      { pageNumber := p
        boundingRect := h.position.boundingRect
        rects := pageRects h p
        usePdfCoordinates := h.position.usePdfCoordinates } }

/-- The key sequence of the returned object.  The code accumulates pages in a
JS `Set` (insertion order) and then uses them as keys of a plain object
(`groupedHighlights`); JS objects enumerate integer-like keys in ascending
numeric order, so the observable key order of the result is the sorted list
of the distinct touched pages. -/
def groupKeys (allHighlights : List IHighlight) : List ℕ :=
  ((allHighlights.flatMap touchedPages).dedup).insertionSort (· ≤ ·)

/-- Function `groupHighlightsByPage` (`Highlighter.tsx` lines 343-388) as an
association list in the object's key-enumeration order: for every touched
page, every working-set highlight that has rects on that page or whose own
page it is, as a page-scoped copy, in input order. -/
def groupHighlightsByPage (highlights : List (Option IHighlight))
    (ghostHighlight : Option IHighlight) : List (ℕ × List IHighlight) :=
  (groupKeys (workingSet highlights ghostHighlight)).map fun p =>
    (p, ((workingSet highlights ghostHighlight).filter (emitsOn p)).map
      (pageScoped p))

/-- Sample highlight: a text highlight on page 2 whose second rect carries
`pageNumber = 3` (a multi-page selection spanning pages 2-3). -/
def sampleRectOwn : Scaled :=
  { x1 := 1, y1 := 2, x2 := 3, y2 := 4, width := 100, height := 200 }

/-- Sample rect tagged with page 3. -/
def sampleRectP3 : Scaled :=
  { x1 := 5, y1 := 6, x2 := 7, y2 := 8, width := 100, height := 200,
    pageNumber := some 3 }

/-- Sample bounding rect. -/
def sampleBound : Scaled :=
  { x1 := 1, y1 := 2, x2 := 7, y2 := 8, width := 100, height := 200 }

/-- Sample multi-page text highlight (pages 2 and 3). -/
def sampleHighlight : IHighlight :=
  { id := some "h1"
    position :=
      { boundingRect := sampleBound
        rects := [sampleRectOwn, sampleRectP3]
        pageNumber := 2 }
    contentText := some "lorem"
    type := some HighlightType.text }

/-! ## Coordinate transform (`src/lib/coordinates.ts`, via
`src/components/Context.tsx`)

The file `src/lib/coordinates.ts` is not part of the source snapshot (only
its callers in `Context.tsx` are), so the two pure transform functions are
modelled from the spec (§4.2). -/

/-- Modelled from the spec: the per-page "viewport descriptor" of the missing
`src/lib/coordinates.ts` (§4.2, §6) — the current rendered width/height pair
plus a native-to-rendered mapping, here an unrotated page viewport given by a
uniform scale and the native page height (native origin bottom-left, y
increasing upward). -/
structure ViewportD where
  width : ℚ
  height : ℚ
  scale : ℚ
  nativeHeight : ℚ
deriving DecidableEq, Repr

/-- Modelled from the spec: the descriptor's native-to-rendered point mapping
(§4.2 step 1) for an unrotated page: `x ↦ scale·x`,
`y ↦ scale·(nativeHeight − y)` — flips the bottom-left native origin to the
top-left rendered origin. -/
def toViewportPoint (v : ViewportD) (x y : ℚ) : ℚ × ℚ :=
  (v.scale * x, v.scale * (v.nativeHeight - y))

/-- Modelled from the spec: `viewportToScaled` of the missing
`src/lib/coordinates.ts` (§4.2): records the corners
`x1 = left, y1 = top, x2 = left+width, y2 = top+height` and the *current*
rendered page dimensions as `width`/`height`, preserving the rect's
`pageNumber`. -/
def viewportToScaled (rect : LTWHP) (v : ViewportD) : Scaled :=
  { x1 := rect.left
    y1 := rect.top
    x2 := rect.left + rect.width
    y2 := rect.top + rect.height
    width := v.width
    height := v.height
    pageNumber := rect.pageNumber }

/-- Modelled from the spec: the `usePdfCoordinates` branch of
`scaledToViewport` (§4.2 step 1): both corners are treated as native
page-space points, converted through the native-to-rendered mapping, and the
resulting rect's top is the `min` of the two mapped ys (accounting for the
axis flip); left and the sizes are taken from the corner pair likewise. -/
def pdfToViewport (s : Scaled) (v : ViewportD) : LTWHP :=
  let a := toViewportPoint v s.x1 s.y1
  let b := toViewportPoint v s.x2 s.y2
  { left := min a.1 b.1
    top := min a.2 b.2
    width := |b.1 - a.1|
    height := |b.2 - a.2|
    pageNumber := s.pageNumber }

/-- Modelled from the spec: `scaledToViewport` of the missing
`src/lib/coordinates.ts` (§4.2): the PDF branch above when
`usePdfCoordinates`, else each stored coordinate is scaled by the ratio of
the current rendered dimensions to the stored ones
(`left = x1 · renderedWidth/scaled.width`, etc.). -/
def scaledToViewport (s : Scaled) (v : ViewportD) (usePdfCoordinates : Bool) :
    LTWHP :=
  if usePdfCoordinates then pdfToViewport s v
  else
    { left := v.width * s.x1 / s.width
      top := v.height * s.y1 / s.height
      width := v.width * s.x2 / s.width - v.width * s.x1 / s.width
      height := v.height * s.y2 / s.height - v.height * s.y1 / s.height
      pageNumber := s.pageNumber }

/-- Function `viewportPositionToScaled` from `Context.tsx` (lines 84-96): converts a
viewport position using the viewport of `getPageView(pageNumber - 1)`,
mapping `libViewportToScaled` over the bounding rect and all rects.  The
viewer's `getPageView(i).viewport` is modelled as a function from page index
to descriptor. -/
def viewportPositionToScaled (getViewport : ℕ → ViewportD)
    (position : Position) : ScaledPosition :=
  { boundingRect :=
      viewportToScaled position.boundingRect
        (getViewport (position.pageNumber - 1))
    rects := position.rects.map fun rect =>
      viewportToScaled rect (getViewport (position.pageNumber - 1))
    pageNumber := position.pageNumber }

/-- Function `scaledPositionToViewport` from `Context.tsx` (lines 42-56): converts a
scaled position back through `libScaledToViewport` with the same page's
viewport and the position's `usePdfCoordinates` flag. -/
def scaledPositionToViewport (getViewport : ℕ → ViewportD)
    (position : ScaledPosition) : Position :=
  { boundingRect :=
      scaledToViewport position.boundingRect
        (getViewport (position.pageNumber - 1)) position.usePdfCoordinates
    rects := position.rects.map fun rect =>
      scaledToViewport rect (getViewport (position.pageNumber - 1))
        position.usePdfCoordinates
    pageNumber := position.pageNumber }

/-! ## Selection extraction (`src/components/Highlighter.tsx`,
`onSelectionchange`) -/

/-- Modelled from the spec: `getBoundingRect` of the missing
`src/lib/get-bounding-rect.ts` (§4.1 `union`): left/top are the minima of
the inputs' left/top, right/bottom the maxima of left+width / top+height,
width/height derived; defined on a non-empty list as a fold from the first
rect. -/
def unionRects (r : LTWHP) (rs : List LTWHP) : LTWHP :=
  rs.foldl
    (fun acc q =>
      { left := min acc.left q.left
        top := min acc.top q.top
        width := max (acc.left + acc.width) (q.left + q.width) -
          min acc.left q.left
        height := max (acc.top + acc.height) (q.top + q.height) -
          min acc.top q.top
        pageNumber := acc.pageNumber })
    r

/-- The geometric core of `onSelectionchange` (`Highlighter.tsx` lines
218-227): given the pages of the selection range (`getPagesFromRange`,
already in document order) and the page-relative client rects, guard on both
being non-empty and build the viewport position whose own `pageNumber` is
`pages[0].number`. -/
def onSelectionchangePosition (pages : List Page) (rects : List LTWHP) :
    Option Position :=
  match pages with
  | [] => none
  | page :: _ =>
    match rects with
    | [] => none
    | r :: rs =>
      some { boundingRect := unionRects r rs, rects := r :: rs,
             pageNumber := page.number }

/-- The highlight record built from a text selection (`Highlighter.tsx`
lines 229-233). -/
def mkTextHighlight (position : ScaledPosition) (text : String) : IHighlight :=
  { position := position, contentText := some text,
    type := some HighlightType.text }

/-- Scenario data: a selection spanning pages 2-3. -/
def scenarioPages : List Page := [⟨2⟩, ⟨3⟩]

/-- Scenario data: one client rect on page 2, one on page 3. -/
def scenarioRects : List LTWHP :=
  [{ left := 0, top := 0, width := 10, height := 10, pageNumber := some 2 },
   { left := 20, top := 20, width := 10, height := 10, pageNumber := some 3 }]

/-- Scenario data: every page renders with the same 100×100 viewport. -/
def scenarioGetViewport : ℕ → ViewportD := fun _ =>
  { width := 100, height := 100, scale := 1, nativeHeight := 100 }

end PdfHighlight

namespace PdfHighlight

/-! ### Helper lemmas about the grouping code -/

/-- Unconditional form of `List.count_filter`. -/
lemma count_filter_eq {α : Type} [DecidableEq α] (l : List α) (q : α → Bool)
    (a : α) : (l.filter q).count a = if q a then l.count a else 0 := by
  by_cases h : q a = true
  · rw [if_pos h]
    exact List.count_filter h
  · rw [if_neg h]
    refine List.count_eq_zero.2 fun hmem => ?_
    exact h (List.of_mem_filter hmem)

/-- Counting in a `flatMap` is the sum of the counts in the pieces. -/
lemma count_flatMap_sum {α β : Type} [DecidableEq α] (l : List β)
    (f : β → List α) (a : α) :
    (l.flatMap f).count a = (l.map fun x => (f x).count a).sum := by
  induction l with
  | nil => rfl
  | cons x xs ih => simp [List.flatMap_cons, List.count_append, ih]

/-- Pointwise sums over lists distribute. -/
lemma sum_map_add_nat {β : Type} (l : List β) (f g : β → ℕ) :
    (l.map fun x => f x + g x).sum = (l.map f).sum + (l.map g).sum := by
  induction l with
  | nil => rfl
  | cons x xs ih =>
    simp only [List.map_cons, List.sum_cons, ih]
    omega

/-- A double sum over two lists of naturals can be exchanged. -/
lemma sum_swap_list {β : Type} (ks : List ℕ) (ws : List β) (t : β → ℕ → ℕ) :
    (ks.map fun p => (ws.map fun h => t h p).sum).sum
      = (ws.map fun h => (ks.map fun p => t h p).sum).sum := by
  induction ks with
  | nil => simp
  | cons p ks ih =>
    simp only [List.map_cons, List.sum_cons, ih]
    rw [← sum_map_add_nat]

/-- Summing `if e = p then c else 0` over `ks` counts the occurrences
of `e` in `ks`. -/
lemma sum_if_count (ks : List ℕ) (e c : ℕ) :
    (ks.map fun p => if e = p then c else 0).sum = ks.count e * c := by
  induction ks with
  | nil => simp
  | cons p ks ih =>
    rw [List.map_cons, List.sum_cons, ih, List.count_cons]
    by_cases h : e = p
    · rw [if_pos h, if_pos (by simp [h]), Nat.add_mul, Nat.one_mul,
        Nat.add_comm]
    · rw [if_neg h,
        if_neg (by simp only [beq_iff_eq]; exact fun hpe => h hpe.symm),
        Nat.add_zero, Nat.zero_add]

/-- A highlight not pushed into page `p`'s group has no rects on `p`. -/
lemma emitsOn_false_pageRects (h : IHighlight) (p : ℕ)
    (he : emitsOn p h = false) : pageRects h p = [] := by
  simp only [emitsOn, Bool.or_eq_false_iff, Bool.not_eq_false'] at he
  exact List.isEmpty_iff.1 he.1

/-- Flattening the rect lists of the page-`p` copies gives, highlight by
highlight, exactly the rects whose effective page is `p`. -/
lemma flatten_copies (ws : List IHighlight) (p : ℕ) :
    ((ws.filter (emitsOn p)).map (pageScoped p)).flatMap
        (fun c => c.position.rects)
      = ws.flatMap fun h => pageRects h p := by
  induction ws with
  | nil => rfl
  | cons h ws ih =>
    cases he : emitsOn p h
    · rw [List.filter_cons_of_neg (by simp [he]), List.flatMap_cons,
        emitsOn_false_pageRects h p he, List.nil_append]
      exact ih
    · rw [List.filter_cons_of_pos (by simp [he]), List.map_cons,
        List.flatMap_cons, List.flatMap_cons, ih]
      rfl

/-- Equation lemma: a rect with no `pageNumber` is not truthy. -/
lemma truthyPageNumber_eq_none (r : Scaled) (h : r.pageNumber = none) :
    truthyPageNumber r = none := by
  unfold truthyPageNumber
  rw [h]

/-- Equation lemma: a present `pageNumber` is truthy exactly when non-zero. -/
lemma truthyPageNumber_eq_some (r : Scaled) (q : ℕ)
    (h : r.pageNumber = some q) :
    truthyPageNumber r = if q = 0 then none else some q := by
  unfold truthyPageNumber
  rw [h]

/-- Equation lemma: the effective page of a rect with no `pageNumber` is the
highlight's own page. -/
lemma rectEffPage_eq_none (own : ℕ) (r : Scaled) (h : r.pageNumber = none) :
    rectEffPage own r = own := by
  unfold rectEffPage
  rw [h]

/-- Equation lemma: the effective page of a rect with a present `pageNumber`
falls back to the own page only when it is zero (JS falsy). -/
lemma rectEffPage_eq_some (own : ℕ) (r : Scaled) (q : ℕ)
    (h : r.pageNumber = some q) :
    rectEffPage own r = if q = 0 then own else q := by
  unfold rectEffPage
  rw [h]

/-- The effective page of a rect of a highlight is a page the highlight
touches. -/
lemma mem_touched_of_eff (h : IHighlight) (r : Scaled)
    (hr : r ∈ h.position.rects) :
    rectEffPage h.position.pageNumber r ∈ touchedPages h := by
  cases hpn : r.pageNumber with
  | none =>
    rw [rectEffPage_eq_none _ r hpn]
    simp [touchedPages]
  | some q =>
    by_cases hq : q = 0
    · rw [rectEffPage_eq_some _ r q hpn, if_pos hq]
      simp [touchedPages]
    · rw [rectEffPage_eq_some _ r q hpn, if_neg hq]
      refine List.mem_cons.2 (Or.inr (List.mem_filterMap.2 ⟨r, hr, ?_⟩))
      rw [truthyPageNumber_eq_some r q hpn, if_neg hq]

/-- Every page touched by a working-set highlight is among the group keys. -/
lemma mem_groupKeys (ws : List IHighlight) (h : IHighlight) (hh : h ∈ ws)
    (x : ℕ) (hx : x ∈ touchedPages h) : x ∈ groupKeys ws :=
  (List.perm_insertionSort _ _).mem_iff.2
    (List.mem_dedup.2 (List.mem_flatMap.2 ⟨h, hh, hx⟩))

/-- The group keys are pairwise distinct. -/
lemma nodup_groupKeys (ws : List IHighlight) : (groupKeys ws).Nodup :=
  (List.perm_insertionSort _ _).nodup_iff.2 (List.nodup_dedup _)

/-- The group keys are sorted in ascending order. -/
lemma sorted_groupKeys (ws : List IHighlight) :
    List.Sorted (· < ·) (groupKeys ws) :=
  (List.sorted_insertionSort _ _).lt_of_le (nodup_groupKeys ws)

/-- The push condition of the inner grouping loop holds exactly on the pages
the highlight touches in the code's sense (own page, or a truthy rect page). -/
lemma emitsOn_iff_touched (h : IHighlight) (p : ℕ) :
    emitsOn p h = true ↔ p ∈ touchedPages h := by
  constructor
  · intro he
    rcases Bool.or_eq_true_iff.1 he with hne | hown
    · rw [Bool.not_eq_true'] at hne
      rcases List.isEmpty_eq_false_iff_exists_mem.1 hne with ⟨r, hrmem⟩
      rcases List.mem_filter.1 hrmem with ⟨hrl, hrq⟩
      have heq : rectEffPage h.position.pageNumber r = p := by
        simpa using hrq
      exact heq ▸ mem_touched_of_eff h r hrl
    · have hpe : p = h.position.pageNumber := by simpa using hown
      exact List.mem_cons.2 (Or.inl hpe)
  · intro hp
    rcases List.mem_cons.1 hp with h1 | h2
    · simp [emitsOn, h1]
    · rcases List.mem_filterMap.1 h2 with ⟨r, hr, htr⟩
      have heff : rectEffPage h.position.pageNumber r = p := by
        cases hpn : r.pageNumber with
        | none => rw [truthyPageNumber_eq_none r hpn] at htr; cases htr
        | some q =>
          rw [truthyPageNumber_eq_some r q hpn] at htr
          by_cases hq : q = 0
          · rw [if_pos hq] at htr; cases htr
          · rw [if_neg hq] at htr
            rw [rectEffPage_eq_some _ r q hpn, if_neg hq]
            exact Option.some.inj htr
      have hmem : r ∈ pageRects h p :=
        List.mem_filter.2 ⟨hr, by simp [heff]⟩
      have hfalse : (pageRects h p).isEmpty = false := by
        rw [List.isEmpty_eq_false_iff_exists_mem]
        exact ⟨r, hmem⟩
      simp [emitsOn, hfalse]

/-- C4. Corner normalization: for every pair of drag start and end points
the drag rectangle built by `getBoundingRect` has left/top equal to the
per-axis minimum of the two points and width/height equal to the per-axis
absolute difference; it is independent of drag direction; and the drag from
`(50,50)` to `(10,10)` yields `{left 10, top 10, width 40, height 40}`. -/
theorem mouseSelection_corner_normalization :
    (∀ a b : Coords,
      getBoundingRect a b =
        { left := min a.x b.x, top := min a.y b.y,
          width := |a.x - b.x|, height := |a.y - b.y| } ∧
      getBoundingRect a b = getBoundingRect b a) ∧
    getBoundingRect ⟨50, 50⟩ ⟨10, 10⟩ =
      { left := 10, top := 10, width := 40, height := 40 } := by
  refine ⟨fun a b => ⟨?_, ?_⟩, ?_⟩
  · simp [getBoundingRect, min_comm b.x a.x, min_comm b.y a.y,
      abs_sub_comm b.x a.x, abs_sub_comm b.y a.y]
  · simp [getBoundingRect, min_comm b.x a.x, min_comm b.y a.y,
      abs_sub_comm b.x a.x, abs_sub_comm b.y a.y]
  · norm_num [getBoundingRect, LTWH.mk.injEq, abs_of_nonpos]

/-- C10. Every page-scoped copy emitted under key `p` by
`groupHighlightsByPage` has its `position.pageNumber` rewritten to `p`;
the original highlight's own page number is not preserved in the copy. -/
theorem grouping_rewrites_pageNumber
    (hs : List (Option IHighlight)) (g : Option IHighlight)
    (p : ℕ) (l : List IHighlight) (c : IHighlight)
    (hl : (p, l) ∈ groupHighlightsByPage hs g) (hc : c ∈ l) :
    c.position.pageNumber = p := by
  rcases List.mem_map.1 hl with ⟨q, _, hq⟩
  cases hq
  rcases List.mem_map.1 hc with ⟨h, _, rfl⟩
  rfl

/-- Witness for `grouping_rewrites_pageNumber` at a concrete input. -/
theorem grouping_rewrites_pageNumber_witness :
    ((2 : ℕ), [pageScoped 2 sampleHighlight]) ∈
        groupHighlightsByPage [some sampleHighlight] none ∧
      pageScoped 2 sampleHighlight ∈ [pageScoped 2 sampleHighlight] ∧
      (pageScoped 2 sampleHighlight).position.pageNumber = 2 :=
  ⟨by decide, by decide,
    grouping_rewrites_pageNumber [some sampleHighlight] none 2
      [pageScoped 2 sampleHighlight] (pageScoped 2 sampleHighlight)
      (by decide) (by decide)⟩

/-- C6. Every page-scoped copy in the output of `groupHighlightsByPage`
keeps the original highlight's `position.boundingRect` unchanged, even though
its rect list is only the subset of the original rects belonging to that
page (an order-preserving sublist). -/
theorem grouping_keeps_boundingRect
    (hs : List (Option IHighlight)) (g : Option IHighlight)
    (p : ℕ) (l : List IHighlight) (c : IHighlight)
    (hl : (p, l) ∈ groupHighlightsByPage hs g) (hc : c ∈ l) :
    ∃ h ∈ workingSet hs g,
      c.position.boundingRect = h.position.boundingRect ∧
        c.position.rects.Sublist h.position.rects := by
  rcases List.mem_map.1 hl with ⟨q, _, hq⟩
  cases hq
  rcases List.mem_map.1 hc with ⟨h, hmem, rfl⟩
  exact ⟨h, List.mem_of_mem_filter hmem, rfl, List.filter_sublist _⟩

/-- C1, amended. Grouping completeness: the multiset union over all page
keys of the per-page rect lists produced by `groupHighlightsByPage` is a
permutation of the multiset of all rects of all working-set highlights (no
rect dropped, none duplicated); and each working-set highlight is pushed into
page `p`'s group exactly when `p` is a page it touches in the code's sense —
its own `position.pageNumber` plus every *truthy* (non-zero)
`rect.pageNumber` of its rects. -/
theorem grouping_completeness (hs : List (Option IHighlight))
    (g : Option IHighlight) :
    (((groupHighlightsByPage hs g).flatMap fun pl =>
        pl.2.flatMap fun c => c.position.rects).Perm
      ((workingSet hs g).flatMap fun h => h.position.rects)) ∧
    ∀ h ∈ workingSet hs g, ∀ p : ℕ,
      (emitsOn p h = true ↔ p ∈ touchedPages h) ∧
      (emitsOn p h = true → ∃ l, (p, l) ∈ groupHighlightsByPage hs g ∧
        pageScoped p h ∈ l) := by
  constructor
  · have hL : ((groupHighlightsByPage hs g).flatMap fun pl =>
        pl.2.flatMap fun c => c.position.rects)
        = (groupKeys (workingSet hs g)).flatMap fun p =>
            (workingSet hs g).flatMap fun h => pageRects h p := by
      unfold groupHighlightsByPage
      rw [List.flatMap_map]
      exact congrArg _ (funext fun p => flatten_copies (workingSet hs g) p)
    rw [hL]
    refine List.perm_iff_count.2 fun r => ?_
    have step1 : ∀ p : ℕ, ((workingSet hs g).flatMap fun h =>
        pageRects h p).count r
        = ((workingSet hs g).map fun h =>
            if rectEffPage h.position.pageNumber r = p then
              h.position.rects.count r else 0).sum := by
      intro p
      rw [count_flatMap_sum]
      refine congrArg List.sum (List.map_congr_left fun h _ => ?_)
      rw [pageRects, count_filter_eq]
      simp [beq_iff_eq]
    calc ((groupKeys (workingSet hs g)).flatMap fun p =>
            (workingSet hs g).flatMap fun h => pageRects h p).count r
        = ((groupKeys (workingSet hs g)).map fun p =>
            ((workingSet hs g).flatMap fun h => pageRects h p).count r).sum :=
          count_flatMap_sum _ _ _
      _ = ((groupKeys (workingSet hs g)).map fun p =>
            ((workingSet hs g).map fun h =>
              if rectEffPage h.position.pageNumber r = p then
                h.position.rects.count r else 0).sum).sum :=
          congrArg List.sum (List.map_congr_left fun p _ => step1 p)
      _ = ((workingSet hs g).map fun h =>
            ((groupKeys (workingSet hs g)).map fun p =>
              if rectEffPage h.position.pageNumber r = p then
                h.position.rects.count r else 0).sum).sum :=
          sum_swap_list _ _ _
      _ = ((workingSet hs g).map fun h =>
            (groupKeys (workingSet hs g)).count
                (rectEffPage h.position.pageNumber r)
              * h.position.rects.count r).sum :=
          congrArg List.sum (List.map_congr_left fun h _ => sum_if_count _ _ _)
      _ = ((workingSet hs g).map fun h => h.position.rects.count r).sum := by
          refine congrArg List.sum (List.map_congr_left fun h hh => ?_)
          by_cases hc : h.position.rects.count r = 0
          · simp [hc]
          · have hrmem : r ∈ h.position.rects := by
              by_contra hnot
              exact hc (List.count_eq_zero.2 hnot)
            rw [List.count_eq_one_of_mem (nodup_groupKeys _)
              (mem_groupKeys _ h hh _ (mem_touched_of_eff h r hrmem)),
              Nat.one_mul]
      _ = ((workingSet hs g).flatMap fun h => h.position.rects).count r :=
          (count_flatMap_sum _ _ _).symm
  · intro h hh p
    refine ⟨emitsOn_iff_touched h p, fun he => ?_⟩
    refine ⟨((workingSet hs g).filter (emitsOn p)).map (pageScoped p),
      List.mem_map.2 ⟨p, mem_groupKeys _ h hh p
        ((emitsOn_iff_touched h p).1 he), rfl⟩,
      List.mem_map.2 ⟨h, List.mem_filter.2 ⟨hh, he⟩, rfl⟩⟩

/-- Witness for `grouping_completeness` at a concrete input. -/
theorem grouping_completeness_witness :
    sampleHighlight ∈ workingSet [some sampleHighlight] none ∧
      (emitsOn 3 sampleHighlight = true ↔ 3 ∈ touchedPages sampleHighlight) ∧
      (emitsOn 3 sampleHighlight = true →
        ∃ l, (3, l) ∈ groupHighlightsByPage [some sampleHighlight] none ∧
          pageScoped 3 sampleHighlight ∈ l) :=
  ⟨by decide,
    (grouping_completeness [some sampleHighlight] none).2 sampleHighlight
      (by decide) 3⟩

/-- The touched-page set exactly as the claim words it: the highlight's own
`position.pageNumber` plus every `rect.pageNumber` present on its rects
(with no truthiness restriction).  This is the claim's notion, used to state
its counterexample; the code's notion is `touchedPages`. -/
def claimTouchedPages (h : IHighlight) : List ℕ :=
  h.position.pageNumber :: h.position.rects.filterMap fun r => r.pageNumber

/-- A highlight on page 1 with a single rect tagged `pageNumber = 0`. -/
def zeroPageHighlight : IHighlight :=
  { position :=
      { boundingRect := sampleBound
        rects := [{ sampleRectOwn with pageNumber := some 0 }]
        pageNumber := 1 } }

/-- C1, counterexample. A rect with `pageNumber = 0` is falsy in JS, so the code
treats the rect as belonging to the highlight's own page: with the claim's
reading of "every distinct rect.pageNumber", `zeroPageHighlight` touches
page 0, yet the grouping output contains no page-0 group at all (its only
key is 1) — the highlight does not appear under the set of pages the claim
assigns it. -/
theorem grouping_completeness_counterexample :
    0 ∈ claimTouchedPages zeroPageHighlight ∧
      (groupHighlightsByPage [some zeroPageHighlight] none).map Prod.fst
          = [1] ∧
      ∀ pl ∈ groupHighlightsByPage [some zeroPageHighlight] none,
        pl.1 ≠ 0 := by
  refine ⟨by decide, by decide, by decide⟩

/-- C5. Grouping output ordering: the page keys of
`groupHighlightsByPage` enumerate in strictly ascending page-number order
(JS objects enumerate integer-like keys ascending), each page's list is an
order-preserving selection (sublist) of the page-scoped images of the
working set in input order, and the function is deterministic. -/
theorem grouping_stable_order (hs : List (Option IHighlight))
    (g : Option IHighlight) :
    List.Sorted (· < ·) ((groupHighlightsByPage hs g).map Prod.fst) ∧
    (∀ p l, (p, l) ∈ groupHighlightsByPage hs g →
      l.Sublist ((workingSet hs g).map (pageScoped p))) ∧
    groupHighlightsByPage hs g = groupHighlightsByPage hs g := by
  refine ⟨?_, ?_, rfl⟩
  · have hkeys : ((groupHighlightsByPage hs g).map Prod.fst)
        = groupKeys (workingSet hs g) := by
      unfold groupHighlightsByPage
      rw [List.map_map]
      exact List.map_id _
    rw [hkeys]
    exact sorted_groupKeys _
  · intro p l hl
    rcases List.mem_map.1 hl with ⟨q, _, hq⟩
    cases hq
    exact (List.filter_sublist _).map (pageScoped p)

/-- Witness for `grouping_stable_order` at a concrete input. -/
theorem grouping_stable_order_witness :
    ((2 : ℕ), [pageScoped 2 sampleHighlight]) ∈
        groupHighlightsByPage [some sampleHighlight] none ∧
      [pageScoped 2 sampleHighlight].Sublist
        ((workingSet [some sampleHighlight] none).map (pageScoped 2)) :=
  ⟨by decide,
    (grouping_stable_order [some sampleHighlight] none).2.1 2
      [pageScoped 2 sampleHighlight] (by decide)⟩

/-- C3. Drag minimum size: on mouse release during a drag (a start point
is recorded), if the resulting rectangle has width < 1 or height < 1
(including the 0×0 rectangle of a plain click), or the release target is
outside the eligible container, then `onSelection` is not invoked and the
machine resets to its idle state. -/
lemma mouseUpHandler_some (st : MouseState) (targetOk : Bool)
    (endC start : Coords) (hstart : st.startCoords = some start) :
    mouseUpHandler st targetOk endC =
      if !targetOk || !(shouldRender (getBoundingRect start endC)) then
        (resetState, none)
      else
        ({ locked := true, startCoords := some start,
           endCoords := some endC }, some (getBoundingRect start endC)) := by
  unfold mouseUpHandler
  rw [hstart]

theorem mouseSelection_min_size (st : MouseState) (targetOk : Bool)
    (endC start : Coords) (hstart : st.startCoords = some start)
    (hfail : (getBoundingRect start endC).width < 1 ∨
      (getBoundingRect start endC).height < 1 ∨ targetOk = false) :
    (mouseUpHandler st targetOk endC).2 = none ∧
      (mouseUpHandler st targetOk endC).1 = resetState := by
  have hguard : (!targetOk || !(shouldRender (getBoundingRect start endC)))
      = true := by
    rcases hfail with hw | hh | ht
    · have : shouldRender (getBoundingRect start endC) = false := by
        unfold shouldRender
        rw [Bool.and_eq_false_iff]
        exact Or.inl (by simpa using not_le.2 hw)
      simp [this]
    · have : shouldRender (getBoundingRect start endC) = false := by
        unfold shouldRender
        rw [Bool.and_eq_false_iff]
        exact Or.inr (by simpa using not_le.2 hh)
      simp [this]
    · simp [ht]
  rw [mouseUpHandler_some st targetOk endC start hstart, if_pos hguard]
  exact ⟨rfl, rfl⟩

/-- Witness for `mouseSelection_min_size`: a 0×0 click at the origin with an
eligible release target is discarded and the machine returns to idle. -/
theorem mouseSelection_min_size_witness :
    (({ locked := false, startCoords := some ⟨0, 0⟩,
        endCoords := none } : MouseState).startCoords = some ⟨0, 0⟩ ∧
      (getBoundingRect ⟨0, 0⟩ ⟨0, 0⟩).width < 1) ∧
      (mouseUpHandler
          { locked := false, startCoords := some ⟨0, 0⟩, endCoords := none }
          true ⟨0, 0⟩).2 = none ∧
      (mouseUpHandler
          { locked := false, startCoords := some ⟨0, 0⟩, endCoords := none }
          true ⟨0, 0⟩).1 = resetState :=
  ⟨⟨rfl, by norm_num [getBoundingRect]⟩,
    mouseSelection_min_size _ true ⟨0, 0⟩ ⟨0, 0⟩ rfl
      (Or.inl (by norm_num [getBoundingRect]))⟩

/-- C7, counterexample. When the measured element is wider than the page
(`w = 100 > 50 = pageWidth`), the computed `left` is `pageWidth - w = -50`,
which does not lie in `[0, pageWidth - w]` (that interval is empty): the
claim's unconditional containment fails. -/
theorem positioner_clamp_counterexample :
    ¬ (0 ≤ positionerLeft ⟨0, 0, 50⟩ ⟨10, 0, 10, 10, none⟩ 100 ∧
        positionerLeft ⟨0, 0, 50⟩ ⟨10, 0, 10, 10, none⟩ 100 ≤ 50 - 100) := by
  intro hcontra
  have : positionerLeft ⟨0, 0, 50⟩ ⟨10, 0, 10, 10, none⟩ 100 = -50 := by
    norm_num [positionerLeft, positionerCenterX, clamp]
  rw [this] at hcontra
  exact absurd hcontra.1 (by norm_num)

/-- C7, amended. Positioning horizontal clamp: the computed `left` equals
`clamp(rectCenterX - w/2, 0, pageWidth - w)`, and whenever the element fits
on the page (`w ≤ pageWidth`) it lies within `[0, pageWidth - w]`, including
anchors at the page's extreme edges. -/
theorem positioner_clamp (node : PageNode) (rect : LTWHP) (w : ℚ)
    (hw : w ≤ node.pageWidth) :
    positionerLeft node rect w =
        clamp (positionerCenterX node rect - w / 2) 0 (node.pageWidth - w) ∧
      0 ≤ positionerLeft node rect w ∧
      positionerLeft node rect w ≤ node.pageWidth - w := by
  refine ⟨rfl, ?_, ?_⟩
  · unfold positionerLeft clamp
    exact le_min (le_max_right _ _) (by linarith)
  · unfold positionerLeft clamp
    exact min_le_right _ _

/-- Witness for `positioner_clamp`: an anchor at the extreme left edge of a
100-wide page with a 20-wide element gets `left = 0 ∈ [0, 80]`. -/
theorem positioner_clamp_witness :
    ((20 : ℚ) ≤ (⟨0, 0, 100⟩ : PageNode).pageWidth) ∧
      (positionerLeft ⟨0, 0, 100⟩ ⟨0, 0, 0, 0, none⟩ 20 =
          clamp (positionerCenterX ⟨0, 0, 100⟩ ⟨0, 0, 0, 0, none⟩ - 20 / 2) 0
            ((⟨0, 0, 100⟩ : PageNode).pageWidth - 20) ∧
        0 ≤ positionerLeft ⟨0, 0, 100⟩ ⟨0, 0, 0, 0, none⟩ 20 ∧
        positionerLeft ⟨0, 0, 100⟩ ⟨0, 0, 0, 0, none⟩ 20 ≤
          (⟨0, 0, 100⟩ : PageNode).pageWidth - 20) :=
  ⟨by norm_num, positioner_clamp ⟨0, 0, 100⟩ ⟨0, 0, 0, 0, none⟩ 20
    (by norm_num)⟩

/-- C8. Positioning vertical flip: with a non-negative element height and
anchor height, the popup sits below the anchor at `rect.bottom + 5` exactly
when placing it above at `rect.top - h - 5` would land above the visible top
of the scroll container, and sits above at `rect.top - h - 5` otherwise
(anchor coordinates taken in container space, `rect.top + node.offsetTop`). -/
theorem positioner_vertical_flip (node : PageNode) (rect : LTWHP)
    (h scrollTop : ℚ) (hh : 0 ≤ h) (hr : 0 ≤ rect.height) :
    (positionerTop node rect h scrollTop =
        rect.top + node.offsetTop + rect.height + 5 ↔
      rect.top + node.offsetTop - h - 5 < scrollTop) ∧
    (positionerTop node rect h scrollTop =
        rect.top + node.offsetTop - h - 5 ↔
      ¬ rect.top + node.offsetTop - h - 5 < scrollTop) := by
  unfold positionerTop
  by_cases hc : rect.top + node.offsetTop - h - 5 < scrollTop
  · rw [if_pos hc]
    constructor
    · exact ⟨fun _ => hc, fun _ => rfl⟩
    · constructor
      · intro heq
        exact absurd heq (by intro h0; linarith)
      · intro hnot
        exact absurd hc hnot
  · rw [if_neg hc]
    constructor
    · constructor
      · intro heq
        exact absurd heq (by intro h0; linarith)
      · intro hlt
        exact absurd hlt hc
    · exact ⟨fun _ => hc, fun _ => rfl⟩

/-- Witness for `positioner_vertical_flip`: anchor at top 10 with element
height 20 on an unscrolled container (`scrollTop = 0`) flips below:
`10 - 20 - 5 = -15 < 0`, so `top = 10 + 0 + 30 + 5 = 45`. -/
theorem positioner_vertical_flip_witness :
    ((0 : ℚ) ≤ 20 ∧ (0 : ℚ) ≤ (⟨0, 0, 30, 30, none⟩ : LTWHP).height) ∧
      (positionerTop ⟨0, 0, 100⟩ ⟨0, 10, 30, 30, none⟩ 20 0 =
          (⟨0, 10, 30, 30, none⟩ : LTWHP).top + (0 : ℚ) +
            (⟨0, 10, 30, 30, none⟩ : LTWHP).height + 5 ↔
        (⟨0, 10, 30, 30, none⟩ : LTWHP).top + (0 : ℚ) - 20 - 5 < 0) :=
  ⟨⟨by norm_num, by norm_num⟩,
    (positioner_vertical_flip ⟨0, 0, 100⟩ ⟨0, 10, 30, 30, none⟩ 20 0
      (by norm_num) (by norm_num)).1⟩

/-- Witness for `grouping_keeps_boundingRect` at a concrete input. -/
theorem grouping_keeps_boundingRect_witness :
    ((3 : ℕ), [pageScoped 3 sampleHighlight]) ∈
        groupHighlightsByPage [some sampleHighlight] none ∧
      ∃ h ∈ workingSet [some sampleHighlight] none,
        (pageScoped 3 sampleHighlight).position.boundingRect =
            h.position.boundingRect ∧
          (pageScoped 3 sampleHighlight).position.rects.Sublist
            h.position.rects :=
  ⟨by decide,
    grouping_keeps_boundingRect [some sampleHighlight] none 3
      [pageScoped 3 sampleHighlight] (pageScoped 3 sampleHighlight)
      (by decide) (by decide)⟩

/-- C2, amended. Round-trip law: for `usePdfCoordinates = false` and a
viewport with non-zero rendered width and height, `scaledToViewport` is an
exact right inverse of `viewportToScaled` for the same viewport descriptor,
both on single rects and on whole positions through the `Context.tsx`
wrappers. -/
theorem coordinates_roundtrip (v : ViewportD) (hw : v.width ≠ 0)
    (hh : v.height ≠ 0) :
    (∀ r : LTWHP, scaledToViewport (viewportToScaled r v) v false = r) ∧
    (∀ (getViewport : ℕ → ViewportD) (pos : Position),
      getViewport (pos.pageNumber - 1) = v →
      scaledPositionToViewport getViewport
        (viewportPositionToScaled getViewport pos) = pos) := by
  have hx : ∀ a : ℚ, v.width * a / v.width = a := fun a =>
    mul_div_cancel_left₀ a hw
  have hy : ∀ a : ℚ, v.height * a / v.height = a := fun a =>
    mul_div_cancel_left₀ a hh
  have hrect : ∀ r : LTWHP, scaledToViewport (viewportToScaled r v) v false
      = r := by
    intro r
    simp [scaledToViewport, viewportToScaled, hx, hy, LTWHP.mk.injEq]
  refine ⟨hrect, ?_⟩
  intro getViewport pos hv
  obtain ⟨bound, rects, page⟩ := pos
  have hv' : getViewport (page - 1) = v := hv
  unfold viewportPositionToScaled scaledPositionToViewport
  simp only [hv']
  simp [Position.mk.injEq, hrect bound, List.map_map]
  have : ∀ r ∈ rects, scaledToViewport (viewportToScaled r v) v false = r :=
    fun r _ => hrect r
  calc rects.map (fun r => scaledToViewport (viewportToScaled r v) v false)
      = rects.map id := List.map_congr_left this
    _ = rects := List.map_id rects

/-- The concrete viewport used by the round-trip counterexample. -/
def cexViewport : ViewportD :=
  { width := 100, height := 100, scale := 1, nativeHeight := 100 }

/-- The concrete rect used by the round-trip counterexample. -/
def cexRect : LTWHP := { left := 10, top := 10, width := 5, height := 5 }

/-- C2, counterexample. With `usePdfCoordinates = true` the round trip
fails: `viewportToScaled` stores viewport-pixel corners, and the PDF branch
of `scaledToViewport` re-interprets them as native bottom-left-origin page
coordinates, flipping the y-axis.  At a 100×100 scale-1 viewport, the rect
at top 10 comes back at top `min(100−10, 100−15) = 85 ≠ 10`. -/
theorem coordinates_roundtrip_counterexample :
    scaledToViewport (viewportToScaled cexRect cexViewport) cexViewport true
      ≠ cexRect := by
  intro hcontra
  have htop := congrArg LTWHP.top hcontra
  norm_num [scaledToViewport, pdfToViewport, toViewportPoint,
    viewportToScaled, cexViewport, cexRect, min_def] at htop

/-- Witness for `coordinates_roundtrip`: the non-PDF round trip is exact at
the counterexample's own rect and viewport. -/
theorem coordinates_roundtrip_witness :
    (cexViewport.width ≠ 0 ∧ cexViewport.height ≠ 0) ∧
      scaledToViewport (viewportToScaled cexRect cexViewport) cexViewport
        false = cexRect :=
  ⟨⟨by norm_num [cexViewport], by norm_num [cexViewport]⟩,
    (coordinates_roundtrip cexViewport (by norm_num [cexViewport])
      (by norm_num [cexViewport])).1 cexRect⟩

/-- The viewport position `onSelectionchange` produces for the pages-2-3
scenario input. -/
def scenarioViewportPosition : Position :=
  { boundingRect := unionRects
      { left := 0, top := 0, width := 10, height := 10, pageNumber := some 2 }
      [{ left := 20, top := 20, width := 10, height := 10,
         pageNumber := some 3 }]
    rects := scenarioRects
    pageNumber := 2 }

/-- C9. Lowest-page tie-break: when the selection's pages are in document
order (ascending page numbers, as `getPagesFromRange` returns them), the
produced position's own `pageNumber` is `pages[0].number`, which is the
lowest page number among the selection's pages; and the concrete scenario —
a selection spanning pages 2-3 pushed through `viewportPositionToScaled` and
`groupHighlightsByPage` — yields a highlight with own `pageNumber = 2` whose
grouping output has exactly the keys `[2, 3]`. -/
theorem selection_lowest_page :
    (∀ (pages : List Page) (rects : List LTWHP) (pos : Position),
      onSelectionchangePosition pages rects = some pos →
      List.Sorted (· ≤ ·) (pages.map Page.number) →
      pos.pageNumber ∈ pages.map Page.number ∧
        ∀ q ∈ pages, pos.pageNumber ≤ q.number) ∧
    (onSelectionchangePosition scenarioPages scenarioRects =
        some scenarioViewportPosition ∧
      scenarioViewportPosition.pageNumber = 2 ∧
      (groupHighlightsByPage
          [some (mkTextHighlight
            (viewportPositionToScaled scenarioGetViewport
              scenarioViewportPosition) "ab")]
          none).map Prod.fst = [2, 3] ∧
      (mkTextHighlight
        (viewportPositionToScaled scenarioGetViewport
          scenarioViewportPosition) "ab").position.pageNumber = 2) := by
  constructor
  · intro pages rects pos hsome hsorted
    cases pages with
    | nil => exact Option.noConfusion hsome
    | cons page ps =>
      cases rects with
      | nil => exact Option.noConfusion hsome
      | cons r rs =>
        obtain rfl := Option.some.inj hsome
        rw [List.map_cons, List.sorted_cons] at hsorted
        refine ⟨List.mem_cons.2 (Or.inl rfl), fun q hq => ?_⟩
        rcases List.mem_cons.1 hq with hq1 | hq2
        · rw [hq1]
        · exact hsorted.1 q.number (List.mem_map.2 ⟨q, hq2, rfl⟩)
  · exact ⟨rfl, rfl, by decide, rfl⟩

/-- Witness for `selection_lowest_page`: the universally quantified part
applied to the pages-2-3 scenario input. -/
theorem selection_lowest_page_witness :
    onSelectionchangePosition scenarioPages scenarioRects =
        some scenarioViewportPosition ∧
      List.Sorted (· ≤ ·) (scenarioPages.map Page.number) ∧
      (scenarioViewportPosition.pageNumber ∈ scenarioPages.map Page.number ∧
        ∀ q ∈ scenarioPages, scenarioViewportPosition.pageNumber ≤ q.number) :=
  ⟨rfl, by decide,
    selection_lowest_page.1 scenarioPages scenarioRects
      scenarioViewportPosition rfl (by decide)⟩

end PdfHighlight